import Mathlib

/-
Verification of the subsquid-drizzle-store state-tracking protocol
(src/store.ts) via a shallow embedding.

The embedding models the persisted database namespace as an explicit
record: the single status row (selected by id = 0, kept as an Option
because id is a primary key), the hot_block table, the hot_change_log
table, and an abstract domain component standing for all caller-owned
tables that the supplied mutation may write.

Transaction semantics: each protocol attempt runs as one atomic
transaction; on an error the transaction rolls back, so the persisted
state is unchanged.  Foreign (concurrent) writers are modelled by an
explicit interference function on the status row, applied between the
state load and the conditional status update: under the default
read-committed isolation a committed foreign update of the status row
is visible to the WHERE clause of the later UPDATE statement, which is
precisely the situation the nonce check is designed to detect.
-/

namespace DrizzleStore

/-- Block identifier: height and hash (store.ts, interface HashAndHeight). -/
structure HashAndHeight where
  height : Int
  hash : String
deriving Repr, DecidableEq

/-- Loaded state: finalized head, nonce and hot suffix
(store.ts, interface DatabaseState). -/
structure DatabaseState where
  height : Int
  hash : String
  nonce : Int
  top : List HashAndHeight
deriving Repr, DecidableEq

/-- The single row of the status table (columns height, hash, nonce;
id is always 0 in this code). -/
structure StatusRow where
  height : Int
  hash : String
  nonce : Int
deriving Repr, DecidableEq

/-- A row of the hot_change_log table: block_height, index, opaque payload. -/
structure ChangeLogEntry where
  blockHeight : Int
  index : Int
  change : String
deriving Repr, DecidableEq

/-- The persisted namespace: status row (Option, since id int4 primary key
admits at most one row with id = 0), hot_block rows, hot_change_log rows,
and the abstract caller-owned domain tables. -/
structure Db (Dom : Type) where
  status : Option StatusRow
  hotBlocks : List HashAndHeight
  changeLog : List ChangeLogEntry
  domain : Dom
deriving Repr, DecidableEq

/-- Race diagnostic (store.ts, RACE_MSG). -/
def RACE_MSG : String :=
  "status table was updated by foreign process, make sure no other processor is running"

/-- Number.isSafeInteger on an integer value: magnitude at most 2^53 - 1. -/
def safeInteger (n : Int) : Bool := n.natAbs ≤ 2 ^ 53 - 1

/-- assertChainContinuity (store.ts): walking the chain from base, every
block height is exactly the predecessor height plus one. -/
def chainContinuous : HashAndHeight → List HashAndHeight → Bool
  | _, [] => true
  | base, b :: rest => b.height == base.height + 1 && chainContinuous b rest

/-- assertStateInvariants (store.ts): assert the height is a safe integer
and the hot suffix is continuous on top of the finalized head, then return
the state unchanged.  A failed assert throws, modelled as Except.error. -/
def assertStateInvariants (state : DatabaseState) : Except String DatabaseState :=
  if safeInteger state.height = false then
    Except.error "assertion failed: Number.isSafeInteger(state.height)"
  else if chainContinuous { height := state.height, hash := state.hash } state.top = false then
    Except.error "blocks must form a continuous chain"
  else Except.ok state

/-- Insert one block into a height-sorted list, keeping it sorted. -/
def insertByHeight (b : HashAndHeight) : List HashAndHeight → List HashAndHeight
  | [] => [b]
  | c :: rest =>
    if b.height ≤ c.height then b :: c :: rest else c :: insertByHeight b rest

/-- ORDER BY height of the hot_block read (store.ts, orderBy(sql height)). -/
def sortByHeight : List HashAndHeight → List HashAndHeight
  | [] => []
  | b :: rest => insertByHeight b (sortByHeight rest)

/-- The DatabaseState assembled from the status row and the hot_block read. -/
def loadedState (r : StatusRow) (hot : List HashAndHeight) : DatabaseState :=
  { height := r.height, hash := r.hash, nonce := r.nonce, top := sortByHeight hot }

/-- getState (store.ts): select the status row where id = 0 (assert exactly
one), read hot_block ordered by height, validate invariants. -/
def getState {Dom : Type} (db : Db Dom) : Except String DatabaseState :=
  match db.status with
  | none => Except.error "assertion failed: status.length === 1"
  | some r => assertStateInvariants (loadedState r db.hotBlocks)

/-- The seeded status row inserted on first connection
(store.ts connect: INSERT ... VALUES (0, -1, a fixed 0x placeholder),
nonce defaulting to 0). -/
def initStatusRow : StatusRow := { height := -1, hash := "0x", nonce := 0 }

/-- connect (store.ts): provision schema and tables (idempotent, a no-op on
the model where the tables always exist), read the status row, insert the
seed row when absent, read hot_block ordered by height, validate invariants,
return the state.  The whole call is one transaction: an error rolls back. -/
def connect {Dom : Type} (db : Db Dom) : Except String (DatabaseState × Db Dom) :=
  match db.status with
  | none =>
    match assertStateInvariants (loadedState initStatusRow db.hotBlocks) with
    | Except.error e => Except.error e
    | Except.ok st => Except.ok (st, { db with status := some initStatusRow })
  | some r =>
    match assertStateInvariants (loadedState r db.hotBlocks) with
    | Except.error e => Except.error e
    | Except.ok st => Except.ok (st, { db with status := some r })

/-- FinalTxInfo (store.ts). -/
structure FinalTxInfo where
  prevHead : HashAndHeight
  nextHead : HashAndHeight
  isOnTop : Bool
deriving Repr, DecidableEq

/-- updateStatus (store.ts): UPDATE status SET height, hash, nonce = nonce + 1
WHERE id = 0 AND nonce = the loaded nonce.  Returns the updated database and
the affected-row count; the source notes in a TODO that it has no way to
obtain this count from its ORM, and its caller discards it. -/
def updateStatus {Dom : Type} (db : Db Dom) (nonce : Int) (next : HashAndHeight) :
    Db Dom × Nat :=
  match db.status with
  | some r =>
    if r.nonce = nonce then
      ({ db with
          status := some { height := next.height, hash := next.hash, nonce := r.nonce + 1 } }, 1)
    else (db, 0)
  | none => (db, 0)

/-- One attempt of the transact transaction body (store.ts transact):
load state, assert the expected previous head and the well-formedness of
info, run the caller mutation cb on the domain tables, then run the
nonce-conditioned updateStatus.  The affected-row count of updateStatus is
discarded, exactly as in the source.  The foreign parameter is the
interference of concurrent writers on the status row, becoming visible
between the load and the update (read-committed isolation). -/
def transactAttempt {Dom : Type} (info : FinalTxInfo) (cb : Dom → Except String Dom)
    (foreign : Option StatusRow → Option StatusRow) (db : Db Dom) :
    Except String (Db Dom) :=
  match getState db with
  | Except.error e => Except.error e
  | Except.ok state =>
    if state.hash ≠ info.prevHead.hash then Except.error RACE_MSG
    else if state.height ≠ info.prevHead.height then
      Except.error "assertion failed: state.height === prev.height"
    else if ¬ info.prevHead.height < info.nextHead.height then
      Except.error "assertion failed: prev.height < next.height"
    else if info.prevHead.hash = info.nextHead.hash then
      Except.error "assertion failed: prev.hash != next.hash"
    else
      match cb db.domain with
      | Except.error e => Except.error e
      | Except.ok dom =>
        let visible : Db Dom := { db with domain := dom, status := foreign db.status }
        Except.ok (updateStatus visible state.nonce info.nextHead).1

/-- transact (store.ts): the attempt wrapped in promiseRetry.  The callback
passed to promiseRetry receives the retry function as an unused parameter
and never invokes it, and promise-retry only re-attempts when that function
is called, so exactly one attempt runs and every failure rejects the call
immediately.  An error rolls the transaction back: the persisted state is
returned unchanged together with the propagated message. -/
def transact {Dom : Type} (info : FinalTxInfo) (cb : Dom → Except String Dom)
    (foreign : Option StatusRow → Option StatusRow) (db : Db Dom) :
    Db Dom × Option String :=
  match transactAttempt info cb foreign db with
  | Except.ok db2 => (db2, none)
  | Except.error e => (db, some e)

/-- A provisioned database at head (5, A), nonce 0, no hot blocks;
the domain component counts the caller mutation writes. -/
def raceDb : Db Nat :=
  { status := some { height := 5, hash := "A", nonce := 0 },
    hotBlocks := [], changeLog := [], domain := 0 }

/-- Advancement info from head (5, A) to head (6, B). -/
def raceInfo : FinalTxInfo :=
  { prevHead := { height := 5, hash := "A" },
    nextHead := { height := 6, hash := "B" },
    isOnTop := true }

/-- A foreign process that completed its own advancement between the state
load and the conditional update; the status row it leaves holds nonce 1. -/
def raceForeign : Option StatusRow → Option StatusRow :=
  fun _ => some { height := 9, hash := "F", nonce := 1 }

/-- The caller mutation: one domain write, modelled as a counter bump. -/
def bumpCb : Nat → Except String Nat := fun n => Except.ok (n + 1)

/-- C1: the spec requires a zero-row nonce-conditioned update to be treated
as a detected foreign-write race, but the source discards the affected-row
count (its own TODO admits it cannot obtain one): after a foreign nonce
bump the conditional update matches zero rows, yet transact still reports
success rather than a race. -/
theorem c1_zero_row_update_not_treated_as_race :
    (updateStatus { raceDb with domain := 1, status := raceForeign raceDb.status }
        0 raceInfo.nextHead).2 = 0 ∧
    (transact raceInfo bumpCb raceForeign raceDb).2 = none := by
  decide

/-- C2: the spec requires every successful commitFinalized to leave the
status row at nextHead with the loaded nonce plus one, atomically with the
mutation; with a foreign nonce bump between load and update the call still
succeeds, the mutation write is visible, but the status row keeps the foreign
values instead of nextHead. -/
theorem c2_success_can_leave_foreign_status :
    (transact raceInfo bumpCb raceForeign raceDb).2 = none ∧
    (transact raceInfo bumpCb raceForeign raceDb).1.domain = 1 ∧
    (transact raceInfo bumpCb raceForeign raceDb).1.status =
      some { height := 9, hash := "F", nonce := 1 } ∧
    (transact raceInfo bumpCb raceForeign raceDb).1.status ≠
      some { height := raceInfo.nextHead.height,
             hash := raceInfo.nextHead.hash, nonce := 0 + 1 } := by
  decide

/-- A database whose persisted head no longer matches the prevHead a stale
caller supplies: a race-detected condition per the spec. -/
def staleDb : Db Nat :=
  { status := some { height := 7, hash := "C", nonce := 3 },
    hotBlocks := [], changeLog := [], domain := 0 }

/-- Stale advancement info: prevHead (5, A) no longer matches the head. -/
def staleInfo : FinalTxInfo :=
  { prevHead := { height := 5, hash := "A" },
    nextHead := { height := 6, hash := "B" },
    isOnTop := true }

/-- C3: the spec requires a detected race to trigger a bounded retry with
freshly reloaded state, but the promiseRetry callback in the source never
invokes its retry parameter, so the race diagnostic of the single attempt
propagates immediately as the overall outcome and no retry happens. -/
theorem c3_race_failure_propagates_without_retry :
    transact staleInfo bumpCb (fun s => s) staleDb = (staleDb, some RACE_MSG) := by
  decide

/-- Helper: a state returned by assertStateInvariants is exactly the state
passed in, and satisfies both invariants. -/
theorem assertStateInvariants_ok (state st : DatabaseState)
    (h : assertStateInvariants state = Except.ok st) :
    st = state ∧ safeInteger st.height = true ∧
      chainContinuous { height := st.height, hash := st.hash } st.top = true := by
  unfold assertStateInvariants at h
  split at h
  · cases h
  · split at h
    · cases h
    · rename_i hSafe hCont
      cases h
      exact ⟨rfl, by simpa using hSafe, by simpa using hCont⟩

/-- Helper: assertStateInvariants rejects every state violating an invariant. -/
theorem assertStateInvariants_error (state : DatabaseState)
    (h : safeInteger state.height = false ∨
         chainContinuous { height := state.height, hash := state.hash } state.top = false) :
    ∃ e, assertStateInvariants state = Except.error e := by
  unfold assertStateInvariants
  by_cases h1 : safeInteger state.height = false
  · simp [h1]
  · rcases h with h | h
    · exact absurd h h1
    · simp [h1, h]

/-- Helper: characterization of a successful connect: the returned state is
the validated load of the (existing or freshly seeded) status row, and the
returned database is the input with that row in place. -/
theorem connect_ok {Dom : Type} (db : Db Dom) (st : DatabaseState) (db2 : Db Dom)
    (h : connect db = Except.ok (st, db2)) :
    ∃ r : StatusRow,
      (db.status = some r ∨ db.status = none ∧ r = initStatusRow) ∧
      assertStateInvariants (loadedState r db.hotBlocks) = Except.ok st ∧
      db2 = { db with status := some r } := by
  unfold connect at h
  cases hs : db.status with
  | none =>
    rw [hs] at h
    cases hval : assertStateInvariants (loadedState initStatusRow db.hotBlocks) with
    | error e => rw [hval] at h; cases h
    | ok st2 =>
      rw [hval] at h
      cases h
      exact ⟨initStatusRow, Or.inr ⟨rfl, rfl⟩, hval, rfl⟩
  | some r =>
    rw [hs] at h
    dsimp only at h
    cases hval : assertStateInvariants (loadedState r db.hotBlocks) with
    | error e => rw [hval] at h; cases h
    | ok st2 =>
      rw [hval] at h
      cases h
      exact ⟨r, Or.inl rfl, hval, rfl⟩

/-- C4: every DatabaseState returned by the state loader (connect and the
per-attempt getState) has a strictly height-contiguous sequence
finalized-head-then-top and a safe-integer height; a returned state is
exactly the persisted data, never repaired; and a persisted state violating
either invariant is rejected with an error at load time. -/
theorem c4_load_validates_invariants :
    ∀ (db : Db Unit) (st : DatabaseState),
      (getState db = Except.ok st →
        safeInteger st.height = true ∧
        chainContinuous { height := st.height, hash := st.hash } st.top = true) ∧
      (∀ r : StatusRow, db.status = some r →
        getState db = Except.ok st → st = loadedState r db.hotBlocks) ∧
      (∀ r : StatusRow, db.status = some r →
        (safeInteger r.height = false ∨
         chainContinuous { height := r.height, hash := r.hash }
           (sortByHeight db.hotBlocks) = false) →
        ∃ e, getState db = Except.error e) ∧
      (∀ db2 : Db Unit, connect db = Except.ok (st, db2) →
        safeInteger st.height = true ∧
        chainContinuous { height := st.height, hash := st.hash } st.top = true) := by
  intro db st
  refine ⟨?_, ?_, ?_, ?_⟩
  · intro h
    unfold getState at h
    cases hs : db.status with
    | none => rw [hs] at h; cases h
    | some r =>
      rw [hs] at h
      exact (assertStateInvariants_ok _ _ h).2
  · intro r hr h
    unfold getState at h
    rw [hr] at h
    exact (assertStateInvariants_ok _ _ h).1
  · intro r hr hviol
    unfold getState
    rw [hr]
    exact assertStateInvariants_error _ hviol
  · intro db2 h
    obtain ⟨r, _, hval, _⟩ := connect_ok db st db2 h
    exact (assertStateInvariants_ok _ _ hval).2

/-- A corrupted persisted state: head at height 0 but a hot block at
height 2, breaking continuity. -/
def dbBad : Db Unit :=
  { status := some { height := 0, hash := "A", nonce := 0 },
    hotBlocks := [{ height := 2, hash := "b" }],
    changeLog := [], domain := () }

/-- C4 witness: the corrupted state dbBad is rejected by getState. -/
theorem c4_load_validates_invariants_witness :
    ∃ e, getState dbBad = Except.error e :=
  (c4_load_validates_invariants dbBad
      { height := 0, hash := "A", nonce := 0, top := [] }).2.2.1
    { height := 0, hash := "A", nonce := 0 } rfl (Or.inr (by decide))

/-- C5: when info violates a precondition (nextHead.height at most
prevHead.height, or nextHead.hash equal to prevHead.hash, or the loaded
head differing from prevHead), transact fails before the caller mutation
runs: the persisted state comes back unchanged, an error is reported, and
the outcome does not depend on the supplied mutation at all. -/
theorem c5_precondition_violation_fails_before_mutation {Dom : Type}
    (info : FinalTxInfo) (foreign : Option StatusRow → Option StatusRow)
    (db : Db Dom)
    (h : info.nextHead.height ≤ info.prevHead.height ∨
         info.nextHead.hash = info.prevHead.hash ∨
         ∀ st, getState db = Except.ok st →
           st.hash ≠ info.prevHead.hash ∨ st.height ≠ info.prevHead.height) :
    ∀ cb : Dom → Except String Dom,
      (transact info cb foreign db).1 = db ∧
      (transact info cb foreign db).2.isSome = true ∧
      transact info cb foreign db =
        transact info (fun d => Except.ok d) foreign db := by
  intro cb
  unfold transact transactAttempt
  cases hg : getState db with
  | error e => simp
  | ok state =>
    by_cases h1 : state.hash = info.prevHead.hash
    · by_cases h2 : state.height = info.prevHead.height
      · rcases h with h | h | h
        · have h3 : ¬ info.prevHead.height < info.nextHead.height := by omega
          simp [h1, h2, h3]
        · by_cases h3 : info.prevHead.height < info.nextHead.height
          · simp [h1, h2, h3, h]
          · simp [h1, h2, h3]
        · rcases h state hg with hc | hc
          · exact absurd h1 hc
          · exact absurd h2 hc
      · simp [h1, h2]
    · simp [h1]

/-- Info violating the height precondition: nextHead.height equals
prevHead.height. -/
def precInfo : FinalTxInfo :=
  { prevHead := { height := 0, hash := "A" },
    nextHead := { height := 0, hash := "B" },
    isOnTop := true }

/-- A database whose head matches precInfo.prevHead. -/
def precDb : Db Nat :=
  { status := some { height := 0, hash := "A", nonce := 0 },
    hotBlocks := [], changeLog := [], domain := 0 }

/-- C5 witness: at the concrete precondition violation precInfo the call
fails and leaves precDb unchanged. -/
theorem c5_precondition_violation_fails_before_mutation_witness :
    (transact precInfo bumpCb (fun s => s) precDb).1 = precDb ∧
    (transact precInfo bumpCb (fun s => s) precDb).2.isSome = true := by
  have h := c5_precondition_violation_fails_before_mutation precInfo
    (fun s => s) precDb (Or.inl (by decide)) bumpCb
  exact ⟨h.1, h.2.1⟩

/-- C6: connect against an already-provisioned namespace mutates nothing
(the returned database is the input unchanged), and a second connect after
any successful connect returns the same state and the same database. -/
theorem c6_connect_idempotent {Dom : Type} (db : Db Dom) :
    (∀ r : StatusRow, db.status = some r →
      ∀ st db2, connect db = Except.ok (st, db2) → db2 = db) ∧
    (∀ st db2, connect db = Except.ok (st, db2) →
      connect db2 = Except.ok (st, db2)) := by
  constructor
  · intro r hr st db2 h
    obtain ⟨r2, hrcase, _, hdb2⟩ := connect_ok db st db2 h
    rcases hrcase with hr2 | ⟨hnone, _⟩
    · cases db with
      | mk s hb cl d =>
        simp only at hr2 hdb2
        rw [hdb2, hr2]
    · rw [hnone] at hr; cases hr
  · intro st db2 h
    obtain ⟨r, _, hval, hdb2⟩ := connect_ok db st db2 h
    subst hdb2
    unfold connect
    dsimp only
    rw [hval]

/-- An already-provisioned namespace: head (3, h3) with one hot block. -/
def db6 : Db Unit :=
  { status := some { height := 3, hash := "h3", nonce := 7 },
    hotBlocks := [{ height := 4, hash := "h4" }],
    changeLog := [], domain := () }

/-- C6 witness: a second connect on the provisioned db6 returns the same
state and database as the first. -/
theorem c6_connect_idempotent_witness :
    connect db6 = Except.ok
      ({ height := 3, hash := "h3", nonce := 7,
         top := [{ height := 4, hash := "h4" }] }, db6) :=
  (c6_connect_idempotent db6).2 _ db6 (by rfl)

/-- C7: on a fresh namespace (no status row, no hot blocks) connect seeds
exactly one status record with height -1, hash 0x, nonce 0, and returns the
matching DatabaseState with an empty top. -/
theorem c7_first_connect_seeds_initial_state {Dom : Type} (db : Db Dom)
    (h1 : db.status = none) (h2 : db.hotBlocks = []) :
    connect db = Except.ok
      ({ height := -1, hash := "0x", nonce := 0, top := [] },
       { db with status := some initStatusRow }) := by
  unfold connect
  rw [h1]
  dsimp only
  rw [h2]
  rfl

/-- A completely fresh namespace. -/
def freshDb : Db Unit :=
  { status := none, hotBlocks := [], changeLog := [], domain := () }

/-- C7 witness: connect on the fresh namespace freshDb. -/
theorem c7_first_connect_seeds_initial_state_witness :
    connect freshDb = Except.ok
      ({ height := -1, hash := "0x", nonce := 0, top := [] },
       { freshDb with status := some initStatusRow }) :=
  c7_first_connect_seeds_initial_state freshDb rfl rfl

/-- Helper: updateStatus touches only the status row. -/
theorem updateStatus_hot_frame {Dom : Type} (db : Db Dom) (nonce : Int)
    (next : HashAndHeight) :
    (updateStatus db nonce next).1.hotBlocks = db.hotBlocks ∧
    (updateStatus db nonce next).1.changeLog = db.changeLog := by
  unfold updateStatus
  rcases hs : db.status with _ | r
  · simp
  · dsimp only
    split <;> simp

/-- Helper: a database returned by a successful transactAttempt carries the
hot_block and hot_change_log tables of the input unchanged. -/
theorem transactAttempt_hot_frame {Dom : Type} (info : FinalTxInfo)
    (cb : Dom → Except String Dom) (foreign : Option StatusRow → Option StatusRow)
    (db db2 : Db Dom)
    (h : transactAttempt info cb foreign db = Except.ok db2) :
    db2.hotBlocks = db.hotBlocks ∧ db2.changeLog = db.changeLog := by
  unfold transactAttempt at h
  cases hg : getState db <;> rw [hg] at h
  · cases h
  · split at h
    · cases h
    · split at h
      · cases h
      · split at h
        · cases h
        · split at h
          · cases h
          · split at h
            · cases h
            · cases hc : cb db.domain <;> rw [hc] at h
              · cases h
              · dsimp only at h
                cases h
                exact updateStatus_hot_frame _ _ _

/-- C9: transact never reads or writes the hot_block or hot_change_log
tables: for every call, successful or failed, with a mutation confined to
the caller-owned domain tables, the persisted hot-block rows and change-log
entries are unchanged. -/
theorem c9_transact_preserves_hot_tables {Dom : Type} (info : FinalTxInfo)
    (cb : Dom → Except String Dom) (foreign : Option StatusRow → Option StatusRow)
    (db : Db Dom) :
    (transact info cb foreign db).1.hotBlocks = db.hotBlocks ∧
    (transact info cb foreign db).1.changeLog = db.changeLog := by
  unfold transact
  cases ha : transactAttempt info cb foreign db with
  | ok db2 => exact transactAttempt_hot_frame info cb foreign db db2 ha
  | error e => simp

/-- HotTxInfo (store.ts): input of the reorg-reconciliation protocol. -/
structure HotTxInfo where
  finalizedHead : HashAndHeight
  baseHead : HashAndHeight
  newBlocks : List HashAndHeight
deriving Repr, DecidableEq

/-- Modelled from the spec: rollback of one stale hot block (section 4.4
step 6); the tracked source has rollbackBlock only as a commented-out TODO
stub.  Deletes the hot_block row at the given height; its hot_change_log
entries cascade with it. -/
def rollbackBlock {Dom : Type} (db : Db Dom) (blockHeight : Int) : Db Dom :=
  { db with
    hotBlocks := db.hotBlocks.filter (fun b => b.height != blockHeight),
    changeLog := db.changeLog.filter (fun c => c.blockHeight != blockHeight) }

/-- Modelled from the spec: insertHotBlock (present in the source only as a
commented-out method): INSERT INTO hot_block (height, hash). -/
def insertHotBlock {Dom : Type} (db : Db Dom) (b : HashAndHeight) : Db Dom :=
  { db with hotBlocks := db.hotBlocks ++ [b] }

/-- Modelled from the spec: deleteHotBlocks (present in the source only as a
commented-out method): DELETE FROM hot_block WHERE height at most the
finalized height; hot_change_log entries cascade. -/
def deleteHotBlocks {Dom : Type} (db : Db Dom) (finalizedHeight : Int) : Db Dom :=
  { db with
    hotBlocks := db.hotBlocks.filter (fun b => decide (finalizedHeight < b.height)),
    changeLog := db.changeLog.filter (fun c => decide (finalizedHeight < c.blockHeight)) }

/-- Modelled from the spec: the per-block phase of section 4.4 step 7 —
persist each remaining new block as a hot block, then apply the mutation
for that single block (slice i to i+1). -/
def appendHotBlocks {Dom : Type} (cb : Dom → Nat → Nat → Dom) :
    List HashAndHeight → Nat → Db Dom → Db Dom
  | [], _, db => db
  | b :: rest, i, db =>
    let db2 := insertHotBlock db b
    appendHotBlocks cb rest (i + 1) { db2 with domain := cb db2.domain i (i + 1) }

/-- Modelled from the spec: reconcile, the reorg-reconciliation protocol of
section 4.4, which the tracked source realizes only as the commented-out
transactHot2 method.  Loads state, validates continuity of the candidate
blocks on the base head, locates the base head in the held chain, rolls
back the held chain from the divergence point, applies the mutation over
the newly finalized slice then per hot block, checks the finalized head
against the recomputed chain, deletes hot blocks at or below the new
finalized height, and advances the status row. -/
def reconcile {Dom : Type} (info : HotTxInfo) (cb : Dom → Nat → Nat → Dom)
    (db : Db Dom) : Except String (Db Dom) :=
  match getState db with
  | Except.error e => Except.error e
  | Except.ok state =>
    let chain : List HashAndHeight :=
      { height := state.height, hash := state.hash } :: state.top
    if chainContinuous info.baseHead info.newBlocks = false then
      Except.error "blocks must form a continuous chain"
    else if ¬ info.finalizedHead.height ≤
        ((info.newBlocks.getLast?).getD info.baseHead).height then
      Except.error "assertion failed: finalizedHead within supplied blocks"
    else if ¬ chain.any (fun b => b.hash == info.baseHead.hash) then
      Except.error RACE_MSG
    else if info.newBlocks = [] ∧
        ¬ (chain.getLast?).map HashAndHeight.hash = some info.baseHead.hash then
      Except.error RACE_MSG
    else if ¬ state.height ≤ info.finalizedHead.height then
      Except.error RACE_MSG
    else
      let rollbackPos : Int := info.baseHead.height + 1 - state.height
      if rollbackPos < 0 then Except.error "assertion failed: rollbackPos >= 0"
      else
        let pos : Nat := rollbackPos.toNat
        let db1 := ((chain.drop pos).reverse).foldl
            (fun d b => rollbackBlock d b.height) db
        let db2 :=
          match info.newBlocks with
          | [] => db1
          | b0 :: _ =>
            let finalizedEnd : Int := info.finalizedHead.height - b0.height + 1
            let fe : Nat := finalizedEnd.toNat
            let dbF :=
              if 0 < finalizedEnd then { db1 with domain := cb db1.domain 0 fe }
              else db1
            appendHotBlocks cb (info.newBlocks.drop fe) fe dbF
        match chain.take pos ++ info.newBlocks with
        | [] => Except.error "assertion failed: chain.length > 0"
        | c0 :: rest =>
          let fhPos : Int := info.finalizedHead.height - c0.height
          if fhPos < 0 then
            Except.error "assertion failed: finalized head not in chain"
          else
            match (c0 :: rest).get? fhPos.toNat with
            | none => Except.error "assertion failed: finalized head not in chain"
            | some cfh =>
              if cfh.hash = info.finalizedHead.hash then
                Except.ok
                  (updateStatus (deleteHotBlocks db2 info.finalizedHead.height)
                    state.nonce info.finalizedHead).1
              else Except.error "assertion failed: finalized head hash mismatch"

/-- The held chain of the reconciliation round-trip: finalized head
(4, base) with hot blocks (5, a), (6, b), (7, c); the domain component
records the slices the mutation is applied to. -/
def hotDb : Db (List (Nat × Nat)) :=
  { status := some { height := 4, hash := "base", nonce := 0 },
    hotBlocks := [{ height := 5, hash := "a" }, { height := 6, hash := "b" },
                  { height := 7, hash := "c" }],
    changeLog := [], domain := [] }

/-- Reconciliation input: base (6, b), candidates (7, c2) and (8, d),
finalized head (7, c2). -/
def hotInfo : HotTxInfo :=
  { finalizedHead := { height := 7, hash := "c2" },
    baseHead := { height := 6, hash := "b" },
    newBlocks := [{ height := 7, hash := "c2" }, { height := 8, hash := "d" }] }

/-- Mutation recording each slice it is applied to. -/
def sliceLogCb : List (Nat × Nat) → Nat → Nat → List (Nat × Nat) :=
  fun log b e => log ++ [(b, e)]

/-- C8: the reconciliation round-trip: from held chain (4, base) plus
(5, a), (6, b), (7, c), reconciling with base (6, b), new blocks (7, c2)
and (8, d), finalized head (7, c2) rolls back the stale hot block (7, c),
applies the mutation first to the finalized slice then to the single
remaining hot block, leaves (8, d) as the sole hot block and the status
row at height 7, hash c2, with the nonce advanced. -/
theorem c8_reconciliation_round_trip :
    reconcile hotInfo sliceLogCb hotDb = Except.ok
      { status := some { height := 7, hash := "c2", nonce := 1 },
        hotBlocks := [{ height := 8, hash := "d" }],
        changeLog := [],
        domain := [(0, 1), (1, 2)] } ∧
    (Except.toOption (reconcile hotInfo sliceLogCb hotDb)).map
        (fun d => d.hotBlocks.contains { height := 7, hash := "c" }) =
      some false :=
  ⟨rfl, rfl⟩

/-- Resolution of the stateSchema option (store.ts constructor): the
configured value, or squid_processor by default. -/
def resolveStateSchema : Option String → String
  | none => "squid_processor"
  | some s => s

/-- Text of the CREATE SCHEMA statement of connect: the schema name enters
through sql.raw (the source marks the spot with a TODO asking about
escaping), so it is spliced into the text rather than bound. -/
def createSchemaSql (schema : String) : String :=
  "CREATE SCHEMA IF NOT EXISTS " ++ schema

/-- Text of the status read of getState and connect: select from
schema.status where id = 0, with the schema raw-interpolated. -/
def selectStatusSql (schema : String) : String :=
  "select height, hash, nonce from " ++ schema ++ ".status where id = 0"

/-- Text of the conditional update of updateStatus: the height, hash and
nonce values are bound parameters (numbered placeholders), while the schema
is raw-interpolated into the text. -/
def updateStatusSql (schema : String) : String :=
  "UPDATE " ++ schema ++
    ".status SET height = $1, hash = $2, nonce = nonce + 1 WHERE id = 0 AND nonce = $3"

/-- Number of statements the backend parses from the text: one plus the
count of statement separators. -/
def sqlStatementCount (s : String) : Nat :=
  1 + (s.toList.filter (fun c => c == ';')).length

/-- C10: every configured stateSchema s, squid_processor by default, is
embedded verbatim and unescaped into the SQL text executed by connect,
getState and updateStatus — an exact prefix-s-suffix concatenation, never a
bound parameter — so a schema value holding SQL metacharacters changes the
structure of the executed statements: a crafted value turns the
single-statement conditional update into three statements. -/
theorem c10_schema_raw_interpolation :
    resolveStateSchema none = "squid_processor" ∧
    (∃ pre post, ∀ s, createSchemaSql s = pre ++ s ++ post) ∧
    (∃ pre post, ∀ s, selectStatusSql s = pre ++ s ++ post) ∧
    (∃ pre post, ∀ s, updateStatusSql s = pre ++ s ++ post) ∧
    sqlStatementCount (updateStatusSql (resolveStateSchema none)) = 1 ∧
    sqlStatementCount
      (updateStatusSql "squid_processor; DROP TABLE squid_processor.status; --")
      = 3 := by
  refine ⟨rfl, ⟨"CREATE SCHEMA IF NOT EXISTS ", "", fun s => ?_⟩,
    ⟨"select height, hash, nonce from ", ".status where id = 0", fun s => rfl⟩,
    ⟨"UPDATE ",
     ".status SET height = $1, hash = $2, nonce = nonce + 1 WHERE id = 0 AND nonce = $3",
     fun s => rfl⟩, rfl, rfl⟩
  simp [createSchemaSql]

end DrizzleStore
